import Mathlib

/-!
Shallow embedding of `src/cvec.h` (natediddy/cvec), a macro-based growable
array for C.

Modelling conventions:
* The backing buffer is a `List (Option α)` whose length is the number of
  allocated slots (`__m` elements of size `__t`); `none` marks an
  uninitialised slot (memory `realloc` handed out but never written).
* `size_t` values are `Nat`; subtractions that can wrap around in C are
  written with `subW`, explicit arithmetic modulo `2 ^ 64`.
* Undefined behaviour (out-of-bounds access, `memcpy` over overlapping
  regions, dereferencing a NULL `__data`, reading an uninitialised slot as a
  value) makes an operation return `Option.none`.
* `realloc` outcomes are an explicit `ok : Bool` argument on the operations
  that may reallocate; `ok = false` models the allocator returning NULL.
* The destructor callback `__on_free` is modelled by a flag `hasFree`
  together with the trace (a `List α`) of the element values it is invoked
  on, in invocation order.
-/

namespace Cvec

/-- The wrap-around modulus of `size_t`: `2 ^ 64`. -/
def W : Nat := 18446744073709551616

/-- C `size_t` subtraction `a - b`, wrapping modulo `2 ^ 64`
(both arguments of a C program are already below `W`). -/
def subW (a b : Nat) : Nat := (W + a - b % W) % W

/-- One allocation: a list of slots, `none` = uninitialised. -/
abbrev Buf (α : Type) := List (Option α)

/-- Read slot `i` of a buffer as a value: `none` when the read is
out of bounds or the slot is uninitialised (both undefined behaviour in C
when the value is used). -/
def bufRead {α : Type} (buf : Buf α) (i : Nat) : Option α :=
  buf.getD i none

/-- Write value `x` to slot `i`: `none` (undefined behaviour) when `i` is
out of bounds. -/
def bufWrite {α : Type} (buf : Buf α) (i : Nat) (x : α) : Option (Buf α) :=
  if i < buf.length then some (buf.set i (some x)) else none

/-- `memcpy(buf + dst, buf + src, t * cnt)` at slot granularity.
C's `memcpy` is undefined when the regions overlap or leave the allocation,
except that a zero-sized copy does nothing. -/
def memcpyB {α : Type} (buf : Buf α) (dst src cnt : Nat) : Option (Buf α) :=
  if cnt = 0 then some buf
  else if dst + cnt ≤ buf.length ∧ src + cnt ≤ buf.length ∧
          (dst + cnt ≤ src ∨ src + cnt ≤ dst) then
    some ((List.range buf.length).map fun i =>
      if dst ≤ i ∧ i < dst + cnt then buf.getD (src + (i - dst)) none
      else buf.getD i none)
  else none

/-- Read the `cnt` slots starting at `start` as values (a destructor-trace
segment); `none` if any read is undefined behaviour. -/
def readRange {α : Type} (buf : Buf α) (start cnt : Nat) : Option (List α) :=
  match cnt with
  | 0 => some []
  | k + 1 =>
    match bufRead buf start with
    | none => none
    | some x =>
      match readRange buf (start + 1) k with
      | none => none
      | some rest => some (x :: rest)

/-- Successful `realloc(data, t * k)`: the old contents survive up to
`min(old, k)` slots, any new tail is uninitialised; `realloc(NULL, _)`
behaves as `malloc`. -/
def reallocBuf {α : Type} (d : Option (Buf α)) (k : Nat) : Buf α :=
  let old := d.getD []
  old.take k ++ List.replicate (k - old.length) none

/-- `CVEC_EOK`. -/
def EOK : Int := 0

/-- `CVEC_EOOM`. -/
def EOOM : Int := -1

/-- The state block `cvec_t(T)`: `__n`, `__m`, `__data`, `__on_free`
(modelled as a presence flag), `__e`, `__sentinel`.  The element size `__t`
is implicit (the model works at slot granularity). -/
structure CVec (α : Type) where
  n : Nat
  m : Nat
  data : Option (Buf α)
  hasFree : Bool
  e : Int
  sentinel : α
deriving DecidableEq

/-- `cvec_init` / `CVEC_INIT`. -/
def cvec_init {α : Type} (hasFree : Bool) (sent : α) : CVec α :=
  ⟨0, 0, none, hasFree, EOK, sent⟩

/-- The capacity `__cvec_maybe_grow` stores: `__m <<= 1` (or `__m = 2` from
zero), then the pre-increment `++__m` in the realloc argument, all in
`size_t`. -/
def growTarget (m : Nat) : Nat :=
  ((if m ≠ 0 then (m * 2) % W else 2) + 1) % W

/-- `__cvec_maybe_grow`: when `__n == __m`, double `__m` (or set it to 2
from 0), then pre-increment it in the `realloc` argument, so the realloc
size and the stored capacity are both target + 1.  On realloc failure the
macro assigns NULL to `__data` (losing the old buffer), sets `__e` and
executes `break` out of the caller's do-while; the returned Bool is
`false` exactly when that `break` fires.  Note `__m` keeps its new value
on failure. -/
def cvec_maybe_grow {α : Type} (v : CVec α) (ok : Bool) : CVec α × Bool :=
  if v.n = v.m then
    if ok then
      ({ v with m := growTarget v.m,
                data := some (reallocBuf v.data (growTarget v.m)) }, true)
    else
      ({ v with m := growTarget v.m, data := none, e := EOOM }, false)
  else (v, true)

/-- `cvec_push_back`: maybe grow, then `*(data + n++) = item`.  When the
grow step hit its `break` (second component `false`) the macro body stops
in the state the failed grow left behind. -/
def cvec_push_back {α : Type} (v : CVec α) (x : α) (ok : Bool) :
    Option (CVec α) :=
  let g := cvec_maybe_grow v ok
  if g.2 then
    match g.1.data with
    | none => none
    | some buf =>
      match bufWrite buf g.1.n x with
      | none => none
      | some buf2 => some { g.1 with data := some buf2, n := g.1.n + 1 }
  else some g.1

/-- `cvec_push_front`: maybe grow, then
`memcpy(begin + 1, data, t * n++); *data = item`. -/
def cvec_push_front {α : Type} (v : CVec α) (x : α) (ok : Bool) :
    Option (CVec α) :=
  let g := cvec_maybe_grow v ok
  if g.2 then
    match g.1.data with
    | none => none
    | some buf =>
      match memcpyB buf 1 0 g.1.n with
      | none => none
      | some buf2 =>
        match bufWrite buf2 0 x with
        | none => none
        | some buf3 => some { g.1 with data := some buf3, n := g.1.n + 1 }
  else some g.1

/-- `cvec_insert`: `__p = pos`; maybe grow; then
`memcpy(data + (p + 1), data + p, t * (n++ - p)); data[p] = item`.
The byte count uses `size_t` subtraction `n - p`. -/
def cvec_insert {α : Type} (v : CVec α) (pos : Nat) (x : α) (ok : Bool) :
    Option (CVec α) :=
  let g := cvec_maybe_grow v ok
  if g.2 then
    match g.1.data with
    | none => none
    | some buf =>
      match memcpyB buf (pos + 1) pos (subW g.1.n pos) with
      | none => none
      | some buf2 =>
        match bufWrite buf2 pos x with
        | none => none
        | some buf3 => some { g.1 with data := some buf3, n := g.1.n + 1 }
  else some g.1

/-- `cvec_erase`: if `n > 0`, call the destructor on `data[p]`, then
`memcpy(data + p, data + (p + 1), t * (n-- - (p - 1)))`.
Both `p - 1` and the outer subtraction are `size_t` and may wrap. -/
def cvec_erase {α : Type} (v : CVec α) (pos : Nat) :
    Option (CVec α × List α) :=
  if 0 < v.n then
    match v.data with
    | none => none
    | some buf =>
      match (if v.hasFree then Option.map (fun a => [a]) (bufRead buf pos)
             else some []) with
      | none => none
      | some tr =>
        match memcpyB buf pos (pos + 1) (subW v.n (subW pos 1)) with
        | none => none
        | some buf2 => some ({ v with data := some buf2, n := v.n - 1 }, tr)
  else some (v, [])

/-- `cvec_erase_n`: if `pos == 1` it delegates to `cvec_erase(v, pos)`
(ignoring the count); only for `pos > 1 && n > 0` does it run the counting
loop, whose trip count is `min count (n - pos)` (Nat subtraction, matching
the loop guard `t < c && x < n` from `x = pos`), invoke the destructor on
the clamped range, and
`memcpy(data + p, data + (p + t), t_size * (n - (p - t)))` with `size_t`
subtractions, then `n -= t`.  Any other `pos` (including 0) does nothing. -/
def cvec_erase_n {α : Type} (v : CVec α) (pos cnt : Nat) :
    Option (CVec α × List α) :=
  if pos = 1 then cvec_erase v pos
  else if 1 < pos ∧ 0 < v.n then
    match v.data with
    | none => none
    | some buf =>
      match (if v.hasFree then readRange buf pos (min cnt (v.n - pos))
             else some []) with
      | none => none
      | some tr =>
        match memcpyB buf pos (pos + min cnt (v.n - pos))
            (subW v.n (subW pos (min cnt (v.n - pos)))) with
        | none => none
        | some buf2 =>
          some ({ v with data := some buf2,
                         n := v.n - min cnt (v.n - pos) }, tr)
  else some (v, [])

/-- `cvec_pop_back`: if `n > 0`, destructor on `cvec_back` = `data[n-1]`,
then `--n`. -/
def cvec_pop_back {α : Type} (v : CVec α) : Option (CVec α × List α) :=
  if 0 < v.n then
    match (if v.hasFree
           then Option.map (fun a => [a]) (bufRead (v.data.getD []) (v.n - 1))
           else some []) with
    | none => none
    | some tr => some ({ v with n := v.n - 1 }, tr)
  else some (v, [])

/-- `cvec_pop_front`: if `n > 0`, destructor on `cvec_front` = `data[0]`,
then `memcpy(begin, begin + 1, t * --n)`. -/
def cvec_pop_front {α : Type} (v : CVec α) : Option (CVec α × List α) :=
  if 0 < v.n then
    match v.data with
    | none => none
    | some buf =>
      match (if v.hasFree then Option.map (fun a => [a]) (bufRead buf 0)
             else some []) with
      | none => none
      | some tr =>
        match memcpyB buf 0 1 (v.n - 1) with
        | none => none
        | some buf2 => some ({ v with data := some buf2, n := v.n - 1 }, tr)
  else some (v, [])

/-- The destructor loop of `cvec_clear`:
`for (size_t __i = 0; __i < n; ++i) on_free(data[__i]);`.
The increment targets `i`, not the loop variable `__i`, so `__i` stays
fixed; the recursion keeps `i` unchanged accordingly and a fuel argument
detects non-termination (`none` = the loop is still running after `fuel`
iterations). -/
def clearLoop {α : Type} (buf : Buf α) (n i : Nat) : Nat → Option (List α)
  | 0 => none
  | fuel + 1 =>
    if i < n then
      match bufRead buf i with
      | none => none
      | some x =>
        match clearLoop buf n i fuel with
        | none => none
        | some rest => some (x :: rest)
    else some []

/-- `cvec_clear`: run the (broken) destructor loop when `__on_free` is set,
then `n = 0`. -/
def cvec_clear {α : Type} (v : CVec α) (fuel : Nat) :
    Option (CVec α × List α) :=
  if v.hasFree then
    match clearLoop (v.data.getD []) v.n 0 fuel with
    | none => none
    | some tr => some ({ v with n := 0 }, tr)
  else some ({ v with n := 0 }, [])

/-- `cvec_free`: if `__on_free && __data`, destructor over `data[0..n)`
in ascending order (this loop increments its own variable correctly), then
`free(data); data = NULL; n = 0; m = 0; e = CVEC_EOK`. -/
def cvec_free {α : Type} (v : CVec α) : Option (CVec α × List α) :=
  match (match v.data with
         | none => some ([] : List α)
         | some buf => if v.hasFree then readRange buf 0 v.n else some []) with
  | none => none
  | some tr => some ({ v with data := none, n := 0, m := 0, e := EOK }, tr)

/-- `cvec_reserve`: `data = realloc(data, t * k); if (!data) e = EOOM;
m = k` — the capacity is set to `k` whether or not the realloc worked. -/
def cvec_reserve {α : Type} (v : CVec α) (k : Nat) (ok : Bool) : CVec α :=
  if ok then { v with data := some (reallocBuf v.data k), m := k }
  else { v with data := none, e := EOOM, m := k }

/-- `cvec_shrink_to_fit`: only when `m > n`, realloc down to `n` slots and
set `m = n` (again even when the realloc failed). -/
def cvec_shrink_to_fit {α : Type} (v : CVec α) (ok : Bool) : CVec α :=
  if v.m > v.n then
    if ok then { v with data := some (reallocBuf v.data v.n), m := v.n }
    else { v with data := none, e := EOOM, m := v.n }
  else v

/-- `cvec_get`: unchecked `*(begin + i)`. -/
def cvec_get {α : Type} (v : CVec α) (i : Nat) : Option α :=
  bufRead (v.data.getD []) i

/-- `cvec_at`: `(i < n) ? *(begin + i) : sentinel`. -/
def cvec_at {α : Type} (v : CVec α) (i : Nat) : Option α :=
  if i < v.n then bufRead (v.data.getD []) i else some v.sentinel

/-- `cvec_front`: `(n > 0) ? *begin : sentinel`. -/
def cvec_front {α : Type} (v : CVec α) : Option α :=
  if 0 < v.n then bufRead (v.data.getD []) 0 else some v.sentinel

/-- `cvec_back`: `(n > 0) ? *(end - 1) : sentinel`. -/
def cvec_back {α : Type} (v : CVec α) : Option α :=
  if 0 < v.n then bufRead (v.data.getD []) (v.n - 1) else some v.sentinel

/-- `cvec_size`: `end - begin`, i.e. `__n`. -/
def cvec_size {α : Type} (v : CVec α) : Nat := v.n

/-- `cvec_cap`: `__m`. -/
def cvec_cap {α : Type} (v : CVec α) : Nat := v.m

/-- `cvec_had_error`: `__e != CVEC_EOK`. -/
def cvec_had_error {α : Type} (v : CVec α) : Bool := v.e != EOK

/-- `cvec_error`: `__e`. -/
def cvec_error {α : Type} (v : CVec α) : Int := v.e

/-- Lift a predicate on states over the `Option` result of an operation
that can hit undefined behaviour (`none` = no defined final state). -/
def allSome {α : Type} (P : CVec α → Prop) : Option (CVec α) → Prop
  | none => True
  | some v => P v

/-- Same as `allSome` for operations that also return a destructor trace. -/
def allSomeT {α : Type} (P : CVec α → Prop) :
    Option (CVec α × List α) → Prop
  | none => True
  | some p => P p.1

theorem subW_self (n : Nat) : subW n n = 0 := by
  unfold subW W
  omega

theorem reallocBuf_length {α : Type} (d : Option (Buf α)) (k : Nat) :
    (reallocBuf d k).length = k := by
  unfold reallocBuf
  simp
  omega

theorem growTarget_eq {m : Nat} (hm : m < 2 ^ 63) :
    growTarget m = (if m = 0 then 2 else 2 * m) + 1 := by
  unfold growTarget W
  by_cases hz : m = 0
  · simp [hz]
  · simp [hz]
    omega

theorem maybe_grow_fst_n {α : Type} (v : CVec α) (ok : Bool) :
    (cvec_maybe_grow v ok).1.n = v.n := by
  unfold cvec_maybe_grow
  split
  · split <;> rfl
  · rfl

theorem maybe_grow_skip {α : Type} {v : CVec α} (ok : Bool)
    (h : v.n ≠ v.m) : cvec_maybe_grow v ok = (v, true) := by
  unfold cvec_maybe_grow
  simp [h]

theorem maybe_grow_full_true {α : Type} {v : CVec α} (h : v.n = v.m) :
    cvec_maybe_grow v true =
      ({ v with m := growTarget v.m,
                data := some (reallocBuf v.data (growTarget v.m)) }, true) := by
  unfold cvec_maybe_grow
  simp [h]

theorem maybe_grow_full_false {α : Type} {v : CVec α} (h : v.n = v.m) :
    cvec_maybe_grow v false =
      ({ v with m := growTarget v.m, data := none, e := EOOM }, false) := by
  unfold cvec_maybe_grow
  simp [h]

theorem maybe_grow_true {α : Type} (v : CVec α) :
    (cvec_maybe_grow v true).1.e = v.e ∧ (cvec_maybe_grow v true).2 = true := by
  unfold cvec_maybe_grow
  split <;> simp

theorem maybe_grow_bounds {α : Type} (v : CVec α) (ok : Bool)
    (h : v.n ≤ v.m) (hm : v.m < 2 ^ 63) :
    (cvec_maybe_grow v ok).1.n ≤ (cvec_maybe_grow v ok).1.m ∧
    ((cvec_maybe_grow v ok).2 = true →
      (cvec_maybe_grow v ok).1.n < (cvec_maybe_grow v ok).1.m) := by
  unfold cvec_maybe_grow
  by_cases hnm : v.n = v.m
  · have ht : growTarget v.m = (if v.m = 0 then 2 else 2 * v.m) + 1 :=
      growTarget_eq hm
    cases ok
    · simp [hnm, ht]
      split <;> omega
    · simp [hnm, ht]
      constructor <;> (split <;> omega)
  · simp [hnm]
    omega

theorem push_back_pres_le {α : Type} {v : CVec α} (x : α) (ok : Bool)
    (h : v.n ≤ v.m) (hm : v.m < 2 ^ 63) :
    allSome (fun w => w.n ≤ w.m) (cvec_push_back v x ok) := by
  unfold cvec_push_back
  rcases hg : cvec_maybe_grow v ok with ⟨v1, cont⟩
  have hb := maybe_grow_bounds v ok h hm
  rw [hg] at hb
  simp only [hg]
  cases cont
  · simpa [allSome] using hb.1
  · rcases hd : v1.data with _ | buf
    · simp [hd, allSome]
    · rcases hw : bufWrite buf v1.n x with _ | buf2
      · simp [hd, hw, allSome]
      · simp [hd, hw, allSome]
        have hlt := hb.2 rfl
        simp at hlt
        omega

theorem push_front_pres_le {α : Type} {v : CVec α} (x : α) (ok : Bool)
    (h : v.n ≤ v.m) (hm : v.m < 2 ^ 63) :
    allSome (fun w => w.n ≤ w.m) (cvec_push_front v x ok) := by
  unfold cvec_push_front
  rcases hg : cvec_maybe_grow v ok with ⟨v1, cont⟩
  have hb := maybe_grow_bounds v ok h hm
  rw [hg] at hb
  simp only [hg]
  cases cont
  · simpa [allSome] using hb.1
  · rcases hd : v1.data with _ | buf
    · simp [hd, allSome]
    · rcases hc : memcpyB buf 1 0 v1.n with _ | buf2
      · simp [hd, hc, allSome]
      · rcases hw : bufWrite buf2 0 x with _ | buf3
        · simp [hd, hc, hw, allSome]
        · simp [hd, hc, hw, allSome]
          have hlt := hb.2 rfl
          simp at hlt
          omega

theorem insert_pres_le {α : Type} {v : CVec α} (pos : Nat) (x : α)
    (ok : Bool) (h : v.n ≤ v.m) (hm : v.m < 2 ^ 63) :
    allSome (fun w => w.n ≤ w.m) (cvec_insert v pos x ok) := by
  unfold cvec_insert
  rcases hg : cvec_maybe_grow v ok with ⟨v1, cont⟩
  have hb := maybe_grow_bounds v ok h hm
  rw [hg] at hb
  simp only [hg]
  cases cont
  · simpa [allSome] using hb.1
  · rcases hd : v1.data with _ | buf
    · simp [hd, allSome]
    · rcases hc : memcpyB buf (pos + 1) pos (subW v1.n pos) with _ | buf2
      · simp [hd, hc, allSome]
      · rcases hw : bufWrite buf2 pos x with _ | buf3
        · simp [hd, hc, hw, allSome]
        · simp [hd, hc, hw, allSome]
          have hlt := hb.2 rfl
          simp at hlt
          omega

theorem pop_back_pres_le {α : Type} {v : CVec α} (h : v.n ≤ v.m) :
    allSomeT (fun w => w.n ≤ w.m) (cvec_pop_back v) := by
  unfold cvec_pop_back
  repeat' split
  all_goals first
    | trivial
    | (simp only [allSomeT]; omega)
    | (simp only [allSomeT]; simp; omega)
    | (simp only [allSomeT]; simp)

theorem pop_front_pres_le {α : Type} {v : CVec α} (h : v.n ≤ v.m) :
    allSomeT (fun w => w.n ≤ w.m) (cvec_pop_front v) := by
  unfold cvec_pop_front
  repeat' split
  all_goals first
    | trivial
    | (simp only [allSomeT]; omega)
    | (simp only [allSomeT]; simp; omega)
    | (simp only [allSomeT]; simp)

theorem erase_pres_le {α : Type} {v : CVec α} (pos : Nat) (h : v.n ≤ v.m) :
    allSomeT (fun w => w.n ≤ w.m) (cvec_erase v pos) := by
  unfold cvec_erase
  repeat' split
  all_goals first
    | trivial
    | (simp only [allSomeT]; omega)
    | (simp only [allSomeT]; simp; omega)
    | (simp only [allSomeT]; simp)

theorem erase_n_pres_le {α : Type} {v : CVec α} (pos cnt : Nat)
    (h : v.n ≤ v.m) :
    allSomeT (fun w => w.n ≤ w.m) (cvec_erase_n v pos cnt) := by
  unfold cvec_erase_n
  split
  · exact erase_pres_le pos h
  · repeat' split
    all_goals first
      | trivial
      | (simp only [allSomeT]; omega)
      | (simp only [allSomeT]; simp; omega)
      | (simp only [allSomeT]; simp)

theorem clear_pres_le {α : Type} {v : CVec α} (fuel : Nat)
    (h : v.n ≤ v.m) :
    allSomeT (fun w => w.n ≤ w.m) (cvec_clear v fuel) := by
  unfold cvec_clear
  repeat' split
  all_goals first
    | trivial
    | (simp only [allSomeT]; omega)
    | (simp only [allSomeT]; simp; omega)
    | (simp only [allSomeT]; simp)

theorem free_pres_le {α : Type} (v : CVec α) :
    allSomeT (fun w => w.n ≤ w.m) (cvec_free v) := by
  unfold cvec_free
  repeat' split
  all_goals first
    | trivial
    | (simp only [allSomeT]; simp)

theorem reserve_pres_le {α : Type} {v : CVec α} {k : Nat} (ok : Bool)
    (hk : v.n ≤ k) :
    (cvec_reserve v k ok).n ≤ (cvec_reserve v k ok).m := by
  unfold cvec_reserve
  cases ok <;> simpa using hk

theorem shrink_pres_le {α : Type} {v : CVec α} (ok : Bool)
    (h : v.n ≤ v.m) :
    (cvec_shrink_to_fit v ok).n ≤ (cvec_shrink_to_fit v ok).m := by
  unfold cvec_shrink_to_fit
  split
  · cases ok <;> simp
  · exact h

/-- Claim C6 (amended): the invariant `length ≤ capacity` holds after
initialization and is preserved by every operation — with two provisos
forced by the code: `reserve` preserves it only when the requested size is
at least the current length (a smaller request sets `capacity` below
`length`, the documented caller error), and the growth arithmetic is
`size_t`, so preservation for the element-adding operations is stated
below the wrap-around threshold `capacity < 2 ^ 63`. -/
theorem claim_C6_invariant_amended {α : Type} (v : CVec α) (hf : Bool)
    (s x : α) (k pos cnt fuel : Nat) (ok : Bool)
    (h : v.n ≤ v.m) (hm : v.m < 2 ^ 63) :
    (cvec_init hf s).n ≤ (cvec_init hf s).m ∧
    (v.n ≤ k → (cvec_reserve v k ok).n ≤ (cvec_reserve v k ok).m) ∧
    ((cvec_shrink_to_fit v ok).n ≤ (cvec_shrink_to_fit v ok).m) ∧
    allSome (fun w => w.n ≤ w.m) (cvec_push_back v x ok) ∧
    allSome (fun w => w.n ≤ w.m) (cvec_push_front v x ok) ∧
    allSome (fun w => w.n ≤ w.m) (cvec_insert v pos x ok) ∧
    allSomeT (fun w => w.n ≤ w.m) (cvec_pop_back v) ∧
    allSomeT (fun w => w.n ≤ w.m) (cvec_pop_front v) ∧
    allSomeT (fun w => w.n ≤ w.m) (cvec_erase v pos) ∧
    allSomeT (fun w => w.n ≤ w.m) (cvec_erase_n v pos cnt) ∧
    allSomeT (fun w => w.n ≤ w.m) (cvec_clear v fuel) ∧
    allSomeT (fun w => w.n ≤ w.m) (cvec_free v) :=
  ⟨Nat.le_refl 0,
   fun hk => reserve_pres_le ok hk,
   shrink_pres_le ok h,
   push_back_pres_le x ok h hm,
   push_front_pres_le x ok h hm,
   insert_pres_le pos x ok h hm,
   pop_back_pres_le h,
   pop_front_pres_le h,
   erase_pres_le pos h,
   erase_n_pres_le pos cnt h,
   clear_pres_le fuel h,
   free_pres_le v⟩

/-- Claim C6 witness: the amended invariant-preservation theorem applied
to the concrete length-1 capacity-2 vector `[5]`, projected to the
push-back conjunct. -/
theorem claim_C6_witness :
    allSome (fun w : CVec Nat => w.n ≤ w.m)
      (cvec_push_back (⟨1, 2, some [some 5, none], false, EOK, 0⟩ : CVec Nat)
        9 true) :=
  (claim_C6_invariant_amended
    (⟨1, 2, some [some 5, none], false, EOK, 0⟩ : CVec Nat)
    false 0 9 3 0 1 1 true (by decide) (by decide)).2.2.2.1

theorem push_back_e_true {α : Type} (v : CVec α) (x : α) :
    allSome (fun w => w.e = v.e) (cvec_push_back v x true) := by
  unfold cvec_push_back
  rcases hg : cvec_maybe_grow v true with ⟨v1, cont⟩
  have ht := maybe_grow_true v
  rw [hg] at ht
  obtain ⟨he, hc⟩ := ht
  simp only at hc he
  subst hc
  simp only [hg]
  rcases hd : v1.data with _ | buf
  · simp [hd, allSome]
  · rcases hw : bufWrite buf v1.n x with _ | buf2
    · simp [hd, hw, allSome]
    · simp [hd, hw, allSome, he]

theorem push_front_e_true {α : Type} (v : CVec α) (x : α) :
    allSome (fun w => w.e = v.e) (cvec_push_front v x true) := by
  unfold cvec_push_front
  rcases hg : cvec_maybe_grow v true with ⟨v1, cont⟩
  have ht := maybe_grow_true v
  rw [hg] at ht
  obtain ⟨he, hc⟩ := ht
  simp only at hc he
  subst hc
  simp only [hg]
  rcases hd : v1.data with _ | buf
  · simp [hd, allSome]
  · rcases hc2 : memcpyB buf 1 0 v1.n with _ | buf2
    · simp [hd, hc2, allSome]
    · rcases hw : bufWrite buf2 0 x with _ | buf3
      · simp [hd, hc2, hw, allSome]
      · simp [hd, hc2, hw, allSome, he]

theorem insert_e_true {α : Type} (v : CVec α) (pos : Nat) (x : α) :
    allSome (fun w => w.e = v.e) (cvec_insert v pos x true) := by
  unfold cvec_insert
  rcases hg : cvec_maybe_grow v true with ⟨v1, cont⟩
  have ht := maybe_grow_true v
  rw [hg] at ht
  obtain ⟨he, hc⟩ := ht
  simp only at hc he
  subst hc
  simp only [hg]
  rcases hd : v1.data with _ | buf
  · simp [hd, allSome]
  · rcases hc2 : memcpyB buf (pos + 1) pos (subW v1.n pos) with _ | buf2
    · simp [hd, hc2, allSome]
    · rcases hw : bufWrite buf2 pos x with _ | buf3
      · simp [hd, hc2, hw, allSome]
      · simp [hd, hc2, hw, allSome, he]

theorem push_back_fail_full_e {α : Type} (v : CVec α) (x : α)
    (h : v.n = v.m) :
    allSome (fun w => w.e = EOOM) (cvec_push_back v x false) := by
  unfold cvec_push_back
  rw [maybe_grow_full_false h]
  simp [allSome]

theorem push_back_slack_alloc_free {α : Type} (v : CVec α) (x : α)
    (h : v.n < v.m) :
    cvec_push_back v x false = cvec_push_back v x true := by
  unfold cvec_push_back
  rw [maybe_grow_skip false (Nat.ne_of_lt h),
    maybe_grow_skip true (Nat.ne_of_lt h)]

theorem pop_back_e {α : Type} (v : CVec α) :
    allSomeT (fun w => w.e = v.e) (cvec_pop_back v) := by
  unfold cvec_pop_back
  repeat' split
  all_goals first
    | trivial
    | (simp only [allSomeT]; simp)

theorem pop_front_e {α : Type} (v : CVec α) :
    allSomeT (fun w => w.e = v.e) (cvec_pop_front v) := by
  unfold cvec_pop_front
  repeat' split
  all_goals first
    | trivial
    | (simp only [allSomeT]; simp)

theorem erase_e {α : Type} (v : CVec α) (pos : Nat) :
    allSomeT (fun w => w.e = v.e) (cvec_erase v pos) := by
  unfold cvec_erase
  repeat' split
  all_goals first
    | trivial
    | (simp only [allSomeT]; simp)

theorem erase_n_e {α : Type} (v : CVec α) (pos cnt : Nat) :
    allSomeT (fun w => w.e = v.e) (cvec_erase_n v pos cnt) := by
  unfold cvec_erase_n
  split
  · exact erase_e v pos
  · repeat' split
    all_goals first
      | trivial
      | (simp only [allSomeT]; simp)

theorem clear_e {α : Type} (v : CVec α) (fuel : Nat) :
    allSomeT (fun w => w.e = v.e) (cvec_clear v fuel) := by
  unfold cvec_clear
  repeat' split
  all_goals first
    | trivial
    | (simp only [allSomeT]; simp)

theorem free_e {α : Type} (v : CVec α) :
    allSomeT (fun w => w.e = EOK) (cvec_free v) := by
  unfold cvec_free
  repeat' split
  all_goals first
    | trivial
    | (simp only [allSomeT]; simp)

theorem reserve_true_e {α : Type} (v : CVec α) (k : Nat) :
    (cvec_reserve v k true).e = v.e := by
  unfold cvec_reserve
  simp

theorem reserve_false_e {α : Type} (v : CVec α) (k : Nat) :
    (cvec_reserve v k false).e = EOOM := by
  unfold cvec_reserve
  simp

theorem shrink_true_e {α : Type} (v : CVec α) :
    (cvec_shrink_to_fit v true).e = v.e := by
  unfold cvec_shrink_to_fit
  split <;> simp

theorem shrink_fail_e {α : Type} (v : CVec α) (h : v.n < v.m) :
    (cvec_shrink_to_fit v false).e = EOOM := by
  unfold cvec_shrink_to_fit
  simp [h]

/-- Claim C7 (amended): the error flag is OK after (re)initialization and
after teardown, is set to OUT_OF_MEMORY by every failing reallocation
(growth-triggering push on a full vector, failing `reserve`, failing
`shrink_to_fit` with excess capacity), and is never cleared by any other
operation: successful allocations and all non-allocating operations leave
it untouched, so it persists until the next failing allocation or
re-initialization rather than reflecting only the most recent attempt. -/
theorem claim_C7_error_amended {α : Type} (v : CVec α) (hf : Bool)
    (s x : α) (k pos cnt fuel : Nat) :
    (cvec_init hf s : CVec α).e = EOK ∧
    allSomeT (fun w => w.e = EOK) (cvec_free v) ∧
    (cvec_reserve v k true).e = v.e ∧
    (cvec_shrink_to_fit v true).e = v.e ∧
    allSome (fun w => w.e = v.e) (cvec_push_back v x true) ∧
    allSome (fun w => w.e = v.e) (cvec_push_front v x true) ∧
    allSome (fun w => w.e = v.e) (cvec_insert v pos x true) ∧
    (cvec_reserve v k false).e = EOOM ∧
    (v.n = v.m → allSome (fun w => w.e = EOOM) (cvec_push_back v x false)) ∧
    (v.n < v.m → (cvec_shrink_to_fit v false).e = EOOM) ∧
    (v.n < v.m → cvec_push_back v x false = cvec_push_back v x true) ∧
    allSomeT (fun w => w.e = v.e) (cvec_pop_back v) ∧
    allSomeT (fun w => w.e = v.e) (cvec_pop_front v) ∧
    allSomeT (fun w => w.e = v.e) (cvec_erase v pos) ∧
    allSomeT (fun w => w.e = v.e) (cvec_erase_n v pos cnt) ∧
    allSomeT (fun w => w.e = v.e) (cvec_clear v fuel) :=
  ⟨rfl,
   free_e v,
   reserve_true_e v k,
   shrink_true_e v,
   push_back_e_true v x,
   push_front_e_true v x,
   insert_e_true v pos x,
   reserve_false_e v k,
   fun h => push_back_fail_full_e v x h,
   fun h => shrink_fail_e v h,
   fun h => push_back_slack_alloc_free v x h,
   pop_back_e v,
   pop_front_e v,
   erase_e v pos,
   erase_n_e v pos cnt,
   clear_e v fuel⟩

/-- Claim C7 witness: the amended sticky-error theorem applied to the full
length-2 capacity-2 vector `[1, 2]`, projected to the failing-push
conjunct: the failed growth sets OUT_OF_MEMORY. -/
theorem claim_C7_witness :
    allSome (fun w : CVec Nat => w.e = EOOM)
      (cvec_push_back (⟨2, 2, some [some 1, some 2], false, EOK, 0⟩ : CVec Nat)
        7 false) :=
  (claim_C7_error_amended
    (⟨2, 2, some [some 1, some 2], false, EOK, 0⟩ : CVec Nat)
    false 0 7 5 0 1 1).2.2.2.2.2.2.2.2.1 rfl

/-- Claim C8: growth happens only when `length = capacity`: a push into a
vector with spare capacity is independent of the allocator and leaves
`capacity` unchanged, while a push into a full vector reallocates to
exactly (2 if the capacity was 0, else twice the capacity) plus one, and
always succeeds when the allocation does.  Stated below the `size_t`
wrap-around threshold `capacity < 2 ^ 63`, where doubling cannot
overflow. -/
theorem claim_C8_growth_policy {α : Type} (v : CVec α) (x : α) (ok : Bool)
    (hm : v.m < 2 ^ 63) :
    (v.n = v.m →
      allSome (fun w => w.m = (if v.m = 0 then 2 else 2 * v.m) + 1)
        (cvec_push_back v x true) ∧
      (cvec_push_back v x true).isSome = true) ∧
    (v.n < v.m →
      cvec_push_back v x false = cvec_push_back v x true ∧
      allSome (fun w => w.m = v.m) (cvec_push_back v x ok)) := by
  constructor
  · intro hnm
    have hlen := reallocBuf_length v.data (growTarget v.m)
    have hlt2 : v.n < growTarget v.m := by
      rw [growTarget_eq hm]
      split <;> omega
    rw [growTarget_eq hm] at hlen hlt2
    constructor
    · unfold cvec_push_back
      rw [maybe_grow_full_true hnm]
      simp [bufWrite, growTarget_eq hm, hlen, hlt2, allSome]
    · unfold cvec_push_back
      rw [maybe_grow_full_true hnm]
      simp [bufWrite, growTarget_eq hm, hlen, hlt2]
  · intro hlt
    constructor
    · exact push_back_slack_alloc_free v x hlt
    · unfold cvec_push_back
      rw [maybe_grow_skip ok (Nat.ne_of_lt hlt)]
      rcases hd : v.data with _ | buf
      · simp [hd, allSome]
      · rcases hw : bufWrite buf v.n x with _ | buf2
        · simp [hd, hw, allSome]
        · simp [hd, hw, allSome]

/-- Claim C8 witness: pushing into the full vector `[1, 2]` (capacity 2)
succeeds and, pushing into `[1]` with capacity 3, the capacity stays 3. -/
theorem claim_C8_witness :
    (cvec_push_back
        (⟨2, 2, some [some 1, some 2], false, EOK, (0 : Nat)⟩ : CVec Nat)
        7 true).isSome = true ∧
    allSome (fun w : CVec Nat => w.m = 3)
      (cvec_push_back
        (⟨1, 3, some [some 1, none, none], false, EOK, 0⟩ : CVec Nat)
        7 true) :=
  ⟨((claim_C8_growth_policy
      (⟨2, 2, some [some 1, some 2], false, EOK, 0⟩ : CVec Nat)
      7 true (by decide)).1 rfl).2,
   ((claim_C8_growth_policy
      (⟨1, 3, some [some 1, none, none], false, EOK, 0⟩ : CVec Nat)
      7 true (by decide)).2 (by decide)).2⟩

/-- Claim C1: the claim says a failed reallocation leaves `length`,
`capacity` and `storage` untouched.  The code violates it: a `push_back`
onto a fresh (length 0, capacity 0) vector whose realloc fails ends with
`capacity = 3` and `storage = NULL` (the old buffer pointer is overwritten
by realloc's NULL), and a failed `reserve(5)` on a length-2 capacity-2
vector ends with `capacity = 5` and `storage = NULL`; only `length` and
the `OUT_OF_MEMORY` error match the claim. -/
theorem claim_C1_oom_mutates_state :
    cvec_push_back (cvec_init true (0 : Nat)) 7 false =
      some ⟨0, 3, none, true, EOOM, 0⟩ ∧
    cvec_reserve (⟨2, 2, some [some 1, some 2], false, EOK, 0⟩ : CVec Nat)
        5 false =
      ⟨2, 5, none, false, EOOM, 0⟩ := by
  constructor <;> decide

/-- Claim C2: the claim says `erase_range(p, c)` clamps `c` and removes
the clamped range for every `p`.  The code disagrees: at `p = 0` neither
branch of `cvec_erase_n` fires, so erasing the first two elements of
`[10, 20, 30]` is a no-op (length stays 3, no destructor runs); and at
`p = 2` on a full 5-element vector the shifting `memcpy` copies
`n - (p - t)` elements, which runs past the allocation (undefined
behaviour), so not even the in-range case matches the claim. -/
theorem claim_C2_erase_range_bug :
    cvec_erase_n
        (⟨3, 3, some [some 10, some 20, some 30], false, EOK, 99⟩ : CVec Nat)
        0 2 =
      some (⟨3, 3, some [some 10, some 20, some 30], false, EOK, 99⟩, []) ∧
    cvec_erase_n
        (⟨5, 5, some [some 1, some 2, some 3, some 4, some 5], false, EOK,
          99⟩ : CVec Nat) 2 1000 = none := by
  constructor <;> decide

/-- Claim C3: the claim says `clear` runs the destructor exactly once per
element in ascending order.  The code's loop increments `i` instead of the
loop variable `__i`, so with a destructor set and one live element the
loop never advances: for every fuel bound the loop is still running
(modelled as `none`), never producing the claimed one-call trace. -/
theorem claim_C3_clear_loop_diverges : ∀ fuel : Nat,
    cvec_clear (⟨1, 2, some [some 5, none], true, EOK, 0⟩ : CVec Nat) fuel =
      none := by
  have hloop : ∀ fuel : Nat,
      clearLoop ([some 5, none] : Buf Nat) 1 0 fuel = none := by
    intro fuel
    induction fuel with
    | zero => rfl
    | succ k ih => simp [clearLoop, bufRead, ih]
  intro fuel
  simp [cvec_clear, hloop fuel]

/-- Claim C4: the claim says `erase(p)` on a non-empty vector shifts the
tail left by one and decrements the length.  The code's `memcpy` size is
`n - (p - 1)` elements instead of `n - p - 1`: on the reachable state
`[4, 5]` with capacity 3 (two pushes after init), `erase(0)` copies 3
elements starting at slot 1, reading past the 3-slot allocation and
overlapping source and destination — undefined behaviour, not the claimed
shift. -/
theorem claim_C4_erase_out_of_bounds :
    cvec_erase (⟨2, 3, some [some 4, some 5, none], false, EOK, 0⟩ : CVec Nat)
        0 =
      none := by
  decide

/-- Claim C5: the claim says `insert(p, x)` preserves the old suffix by
shifting it one slot right.  The code shifts with `memcpy` whose source
`[p, n)` and destination `[p+1, n+1)` overlap whenever at least two
elements move: inserting at position 0 of `[4, 5]` (capacity 3) is
undefined behaviour — a forward byte copy would duplicate element 4 —
so the code does not implement the claimed shift. -/
theorem claim_C5_insert_overlap :
    cvec_insert (⟨2, 3, some [some 4, some 5, none], false, EOK, 0⟩ : CVec Nat)
        0 9 true =
      none := by
  decide

/-- Claim C6 counterexample: `reserve` with a requested size below the
current length sets `capacity` below `length`, so the invariant
`length ≤ capacity` is not preserved by reserve with an arbitrary
requested size: after `reserve(1)` on a length-2 vector, `n = 2 > m = 1`. -/
theorem claim_C6_reserve_breaks_invariant :
    ¬ ((cvec_reserve (⟨2, 2, some [some 1, some 2], false, EOK, 0⟩ : CVec Nat)
          1 true).n ≤
       (cvec_reserve (⟨2, 2, some [some 1, some 2], false, EOK, 0⟩ : CVec Nat)
          1 true).m) := by
  decide

/-- Claim C7 counterexample: the error flag is not overwritten by the next
allocating call's outcome.  After a failed push on a fresh vector
(`error = OUT_OF_MEMORY`) a subsequent `reserve(5)` whose allocation
succeeds leaves `had_error` still true, while the claim says a subsequent
successful allocation clears it. -/
theorem claim_C7_error_is_sticky :
    (cvec_push_back (cvec_init false (0 : Nat)) 7 false).map
      (fun v1 => cvec_had_error (cvec_reserve v1 5 true)) = some true := by
  decide

/-- Claim C9: `at(i)` agrees with the unchecked `get(i)` for `i < length`
and returns the sentinel for `i ≥ length`; `front`/`back` return the
first/last element (as `get 0` / `get (length - 1)`) on a non-empty
vector and the sentinel on an empty one. -/
theorem claim_C9_access_sentinel {α : Type} (v : CVec α) (i : Nat) :
    (i < v.n → cvec_at v i = cvec_get v i) ∧
    (v.n ≤ i → cvec_at v i = some v.sentinel) ∧
    (v.n = 0 → cvec_front v = some v.sentinel ∧
      cvec_back v = some v.sentinel) ∧
    (0 < v.n → cvec_front v = cvec_get v 0 ∧
      cvec_back v = cvec_get v (v.n - 1)) := by
  unfold cvec_at cvec_get cvec_front cvec_back
  refine ⟨fun h => by simp [h], fun h => by simp [Nat.not_lt.mpr h],
    fun h => by simp [h], fun h => by simp [h]⟩

/-- Claim C9 witness: on the concrete vector `[4, 5]` with sentinel 77,
`at 1 = get 1` and `at 5` returns the sentinel. -/
theorem claim_C9_witness :
    cvec_at (⟨2, 3, some [some 4, some 5, none], false, EOK, 77⟩ : CVec Nat)
        1 =
      cvec_get (⟨2, 3, some [some 4, some 5, none], false, EOK, 77⟩ : CVec Nat)
        1 ∧
    cvec_at (⟨2, 3, some [some 4, some 5, none], false, EOK, 77⟩ : CVec Nat)
        5 = some 77 :=
  ⟨(claim_C9_access_sentinel
      (⟨2, 3, some [some 4, some 5, none], false, EOK, 77⟩ : CVec Nat) 1).1
      (by decide),
   (claim_C9_access_sentinel
      (⟨2, 3, some [some 4, some 5, none], false, EOK, 77⟩ : CVec Nat)
      5).2.1 (by decide)⟩

/-- Claim C10: inserting at position `size(v)` is the same operation as
`push_back`: the shifting `memcpy` count `n - p` is zero there, so both
make the same growth decision and produce the identical resulting state
(length, capacity, buffer contents and error) for every starting state,
item and allocation outcome. -/
theorem claim_C10_insert_at_end_is_push_back {α : Type} (v : CVec α) (x : α)
    (ok : Bool) :
    cvec_insert v (cvec_size v) x ok = cvec_push_back v x ok := by
  unfold cvec_insert cvec_push_back cvec_size
  rcases hg : cvec_maybe_grow v ok with ⟨v1, cont⟩
  have hn : v1.n = v.n := by
    have h0 := maybe_grow_fst_n v ok
    rw [hg] at h0
    exact h0
  simp only [hg]
  cases cont
  · rfl
  · rcases hd : v1.data with _ | buf
    · simp [hd]
    · simp [hd, hn, subW_self, memcpyB]

end Cvec
